import Mathlib

/-!
Verification development for the job-scheduler repository.

The Go sources are embedded shallowly:
* `internal/models/queue_job.go`   → `QueueJob`, `QueueJob.shouldRetry`,
  `QueueJob.incrementRetry`, `QueueJob.calculateRetryDelay`
* `internal/services/job_queue.go` → `RedisState`, `enqueueJob`, `completeJob`,
  `failJob`, worker functions `handleSuccessfulJob`, `handleFailedJob`, `processJob`
* `internal/utils/schedule.go` together with the pinned robfig/cron v3 library it
  delegates to → the calendar functions and `cronNext`
* the SchedulerService (scheduler.go) → `MetaState`, `getJob`, `getJobSchedule`,
  `updateJobSchedule`, `deleteJobSchedule`, `handleJobCompletion`
* `internal/handlers/job.go` → `createJob`, `listJobsPagination`

Machine integers: Go `int` is 64-bit two's complement here; where overflow can
matter the model wraps through `wrap64`.  Instants are integral seconds in UTC
counted from 0001-01-01 00:00:00 UTC, so Go's zero `time.Time` is `0`;
durations are nanoseconds, as in Go.  JSON (de)serialization of queue messages
is modelled as the identity and Redis keys `job_data:` are an association list
keyed by the queue id.
-/

namespace JobSched

/-! ### internal/models/queue_job.go -/

/-- Go `models.JobType` is a string type with two named constants. -/
abbrev JobType := String

def AT_LEAST_ONCE : JobType := "AT_LEAST_ONCE"

def AT_MOST_ONCE : JobType := "AT_MOST_ONCE"

/-- `models.QueueJob`: one (possibly retried) attempt travelling through Redis.
`createdAt`/`scheduledAt` are nanosecond instants, `timeout` is seconds. -/
structure QueueJob where
  id : String
  jobID : Nat
  api : String
  maxRetryCount : Int
  retryCount : Int
  createdAt : Int
  scheduledAt : Int
  timeout : Int
  jobType : JobType
  isRecurring : Bool
  schedule : String
  deriving DecidableEq

/-- `generateQueueJobID`: the queue id is the job id plus a nanosecond tag. -/
def generateQueueJobID (jobID : Nat) (nowNano : Int) : String :=
  "job_" ++ toString jobID ++ "_" ++ toString nowNano

/-- `QueueJob.ShouldRetry`: no retry once the count reached the cap, never for
AT_MOST_ONCE, otherwise retry exactly for AT_LEAST_ONCE. -/
def QueueJob.shouldRetry (qj : QueueJob) : Bool :=
  if qj.retryCount ≥ qj.maxRetryCount then false
  else if qj.jobType == AT_MOST_ONCE then false
  else qj.jobType == AT_LEAST_ONCE

/-- `QueueJob.IncrementRetry`: copy with the count bumped and a fresh queue id. -/
def QueueJob.incrementRetry (qj : QueueJob) (nowNano : Int) : QueueJob :=
  { qj with retryCount := qj.retryCount + 1, id := generateQueueJobID qj.jobID nowNano }

/-- Two's-complement wrap-around of Go's 64-bit `int`. -/
def wrap64 (x : Int) : Int := (x + 2 ^ 63) % 2 ^ 64 - 2 ^ 63

/-- Nanoseconds per second, Go's `time.Second`. -/
def goSecond : Int := 1000000000

/-- `QueueJob.CalculateRetryDelay`: `1 << retryCount` seconds (Go shift on `int`,
so wrapping; the code only ever calls it with a non-negative count), capped at
5 minutes.  Result is a Go `time.Duration` in nanoseconds. -/
def QueueJob.calculateRetryDelay (qj : QueueJob) : Int :=
  let delaySeconds : Int := wrap64 ((2 : Int) ^ qj.retryCount.toNat)
  let maxDelay : Int := 300 * goSecond
  let delay : Int := wrap64 (delaySeconds * goSecond)
  if delay > maxDelay then maxDelay else delay

/-- The delay `JobQueueService.FailJob` schedules before re-running `job`
(job_queue.go lines 148-170): it increments the retry count first and computes
the backoff from the already-incremented count. -/
def failJobRetryDelay (job : QueueJob) (nowNano : Int) : Int :=
  (job.incrementRetry nowNano).calculateRetryDelay

/-! ### internal/models/execution.go -/

def StatusScheduled : String := "SCHEDULED"

def StatusRunning : String := "RUNNING"

def StatusSuccess : String := "SUCCESS"

def StatusFailed : String := "FAILED"

/-- `models.JobExecution` (fields relevant to the queue/worker logic;
`executionTime` is a nanosecond instant). -/
structure JobExecution where
  jobID : Nat
  status : String
  error : String
  executionTime : Int
  retryCount : Int
  deriving DecidableEq

/-- `models.QueueJobResult`. -/
structure QueueJobResult where
  jobID : String
  status : String
  success : Bool
  error : String
  executionTime : Int
  executionDuration : Int
  retryCount : Int
  deriving DecidableEq

def QueueStatusCompleted : String := "completed"

def QueueStatusFailed : String := "failed"

/-! ### internal/services/job_queue.go — the Redis lanes -/

/-- The broker lanes: `ready` list, `processing` set of ids, the `job_data`
bodies, the `retrying` sorted set (score in unix seconds, member) and the
`completed` list. -/
structure RedisState where
  ready : List QueueJob
  processing : List String
  jobData : List (String × QueueJob)
  retrying : List (Int × QueueJob)
  completed : List QueueJobResult
  deriving DecidableEq

/-- `JobQueueService.EnqueueJob`: LPUSH onto the ready list. -/
def enqueueJob (st : RedisState) (job : QueueJob) : RedisState :=
  { st with ready := job :: st.ready }

/-- `JobQueueService.CompleteJob`: SREM from processing, DEL of the job_data
key, LPUSH of the result onto completed, LTRIM to the newest 1000. -/
def completeJob (st : RedisState) (jobID : String) (result : QueueJobResult) : RedisState :=
  { st with
    processing := st.processing.filter (fun x => x ≠ jobID)
    jobData := st.jobData.filter (fun p => p.1 ≠ jobID)
    completed := (result :: st.completed).take 1000 }

/-- `JobQueueService.FailJob`: release the claim (SREM + DEL), then either defer
an incremented copy to the retrying sorted set with score
`time.Now().Add(delay).Unix()`, or mark the job permanently failed through
`CompleteJob`. -/
def failJob (st : RedisState) (job : QueueJob) (nowNano : Int) (errorMsg : String) : RedisState :=
  let st1 : RedisState :=
    { st with
      processing := st.processing.filter (fun x => x ≠ job.id)
      jobData := st.jobData.filter (fun p => p.1 ≠ job.id) }
  if job.shouldRetry then
    let retryJob := job.incrementRetry nowNano
    let retryDelay := retryJob.calculateRetryDelay
    let score := (nowNano + retryDelay) / goSecond
    { st1 with retrying := (score, retryJob) :: st1.retrying }
  else
    completeJob st1 job.id
      { jobID := job.id, status := QueueStatusFailed, success := false, error := errorMsg
        executionTime := 0, executionDuration := 0, retryCount := job.retryCount }

/-! ### internal/services/job_queue.go — the worker -/

/-- `PostgresStorage.GetJobExecutionInProgress`: newest execution of the job in
status SCHEDULED or RUNNING, if any. -/
def getJobExecutionInProgress (execs : List JobExecution) (jobID : Nat) : Option JobExecution :=
  (execs.filter
    (fun e => e.jobID == jobID && (e.status == StatusScheduled || e.status == StatusRunning))).head?

/-- `WorkerService.handleSuccessfulJob` (lines 521-537): build the completed
result and call `CompleteJob`.  The returned list holds the
`(job_id, success)` notifications sent to `scheduler.HandleJobCompletion`;
this path sends none. -/
def handleSuccessfulJob (st : RedisState) (job : QueueJob) (execution : JobExecution)
    (durationNs : Int) : RedisState × List (Nat × Bool) :=
  (completeJob st job.id
      { jobID := job.id, status := QueueStatusCompleted, success := true, error := ""
        executionTime := execution.executionTime, executionDuration := durationNs
        retryCount := job.retryCount },
    [])

/-- `WorkerService.handleFailedJob` (lines 540-558): `FailJob` on the broker and
then, unconditionally, one `HandleJobCompletion(job.JobID, false)` call. -/
def handleFailedJob (st : RedisState) (job : QueueJob) (execution : JobExecution)
    (nowNano : Int) : RedisState × List (Nat × Bool) :=
  let errorMsg := if execution.error ≠ "" then execution.error else "API call failed"
  (failJob st job nowNano errorMsg, [(job.jobID, false)])

/-- `WorkerService.processJob` (lines 429-499).  If the single-flight guard
finds an execution in progress the message is abandoned: only an SREM of the
queue id from processing happens.  Otherwise a JobExecution is recorded
(SCHEDULED → RUNNING → SUCCESS/FAILED; the store writes are assumed to
succeed), the HTTP outcome is `httpSuccess`, and the completion is dispatched.
Result: the new broker state, the scheduler notifications, and the execution
rows created. -/
def processJob (st : RedisState) (execs : List JobExecution) (job : QueueJob)
    (httpSuccess : Bool) (nowNano : Int) (durationNs : Int) :
    RedisState × List (Nat × Bool) × List JobExecution :=
  match getJobExecutionInProgress execs job.jobID with
  | some _ =>
      ({ st with processing := st.processing.filter (fun x => x ≠ job.id) }, [], [])
  | none =>
      let finalExec : JobExecution :=
        if httpSuccess then
          { jobID := job.jobID, status := StatusSuccess, error := ""
            executionTime := nowNano, retryCount := job.retryCount }
        else
          { jobID := job.jobID, status := StatusFailed, error := "API call failed"
            executionTime := nowNano, retryCount := job.retryCount }
      if httpSuccess then
        let r := handleSuccessfulJob st job finalExec durationNs
        (r.1, r.2, [finalExec])
      else
        let r := handleFailedJob st job finalExec nowNano
        (r.1, r.2, [finalExec])

/-! ### internal/utils/schedule.go and the robfig/cron v3 engine it wraps

`ScheduleParser.CalculateNextExecution` parses the 6-field expression and then
returns `cronSchedule.Next(fromTime)` with a nil error.  The search itself is
the library's `SpecSchedule.Next`, reproduced here over integral UTC seconds
(the repository only feeds UTC instants, where the library's DST fix-ups are
no-ops).  `none` stands for the zero `time.Time` the library returns when no
firing is found before `yearLimit`. -/

def secondsPerDay : Nat := 86400

/-- Civil date `(year, month, day)` from a day number counted from
0001-01-01 (Howard Hinnant's algorithm, shifted so day 0 is Go's zero time). -/
def civilFromDays (d : Nat) : Nat × Nat × Nat :=
  let z := d + 306
  let era := z / 146097
  let doe := z % 146097
  let yoe := (doe - doe / 1460 + doe / 36524 - doe / 146096) / 365
  let doy := doe - (365 * yoe + yoe / 4 - yoe / 100)
  let mp := (5 * doy + 2) / 153
  let day := doy - (153 * mp + 2) / 5 + 1
  let m := if mp < 10 then mp + 3 else mp - 9
  let y := yoe + era * 400 + (if m ≤ 2 then 1 else 0)
  (y, m, day)

/-- `t.Year()` of an instant in seconds. -/
def yearOf (t : Nat) : Nat := (civilFromDays (t / secondsPerDay)).1

/-- `t.Month()` of an instant in seconds (1 = January). -/
def monthOf (t : Nat) : Nat := (civilFromDays (t / secondsPerDay)).2.1

/-- `t.Day()` (day of month) of a day number. -/
def dayOfMonth (d : Nat) : Nat := (civilFromDays d).2.2

/-- `t.Weekday()` of a day number; Go counts Sunday = 0, and day 0
(0001-01-01) was a Monday. -/
def weekdayOf (d : Nat) : Nat := (d + 1) % 7

/-- `robfig/cron.SpecSchedule`: a 64-bit set per field; bit 63 is the star bit. -/
structure SpecSchedule where
  second : Nat
  minute : Nat
  hour : Nat
  dom : Nat
  month : Nat
  dow : Nat
  deriving DecidableEq

/-- `1 << n & mask > 0` on the library's uint64 field sets. -/
def hasBit (mask n : Nat) : Bool := mask.testBit n

/-- `dayMatches`: if either day field has the star bit the two constraints are
conjoined, otherwise the usual cron OR convention applies. -/
def dayMatches (s : SpecSchedule) (t : Nat) : Bool :=
  let domMatch := hasBit s.dom (dayOfMonth (t / secondsPerDay))
  let dowMatch := hasBit s.dow (weekdayOf (t / secondsPerDay))
  if hasBit s.dom 63 || hasBit s.dow 63 then domMatch && dowMatch
  else domMatch || dowMatch

/-- In the loop encodings below `Sum.inl c` is the library's `goto WRAP` with
candidate `c`, and `Sum.inr c` falls through to the next field's loop. -/
def seekVal : Sum Nat Nat → Nat := fun x => Sum.elim id id x

/-- The seconds loop after its first `t.Truncate(time.Second); t += 1s` step:
rolling over into second 0 jumps back to WRAP. -/
def secSeek (s : SpecSchedule) : Nat → Nat → Sum Nat Nat
  | 0, c => .inl c
  | fuel + 1, c =>
    if c % 60 == 0 then .inl c
    else if hasBit s.second (c % 60) then .inr c
    else secSeek s fuel (c + 1)

/-- Entry to the seconds loop: the loop condition is tested before any step. -/
def secAdjust (s : SpecSchedule) (c : Nat) : Sum Nat Nat :=
  if hasBit s.second (c % 60) then .inr c else secSeek s 60 (c + 1)

/-- The minutes loop after its `t.Truncate(time.Minute); t += 1m` step. -/
def minuteSeek (s : SpecSchedule) : Nat → Nat → Sum Nat Nat
  | 0, c => .inl c
  | fuel + 1, c =>
    if c % 3600 / 60 == 0 then .inl c
    else if hasBit s.minute (c % 3600 / 60) then .inr c
    else minuteSeek s fuel (c + 60)

def minuteAdjust (s : SpecSchedule) (c : Nat) : Sum Nat Nat :=
  if hasBit s.minute (c % 3600 / 60) then .inr c
  else minuteSeek s 60 ((c / 60 + 1) * 60)

/-- The hours loop after its truncate-to-hour plus one hour step. -/
def hourSeek (s : SpecSchedule) : Nat → Nat → Sum Nat Nat
  | 0, c => .inl c
  | fuel + 1, c =>
    if c % secondsPerDay / 3600 == 0 then .inl c
    else if hasBit s.hour (c % secondsPerDay / 3600) then .inr c
    else hourSeek s fuel (c + 3600)

def hourAdjust (s : SpecSchedule) (c : Nat) : Sum Nat Nat :=
  if hasBit s.hour (c % secondsPerDay / 3600) then .inr c
  else hourSeek s 24 ((c / 3600 + 1) * 3600)

/-- The day loop after its reset-to-midnight plus `AddDate(0, 0, 1)` step
(in UTC the DST adjustment in the library is a no-op): reaching day 1 of the
next month jumps back to WRAP. -/
def daySeek (s : SpecSchedule) : Nat → Nat → Sum Nat Nat
  | 0, c => .inl c
  | fuel + 1, c =>
    if dayOfMonth (c / secondsPerDay) == 1 then .inl c
    else if dayMatches s c then .inr c
    else daySeek s fuel (c + secondsPerDay)

def dayAdjust (s : SpecSchedule) (c : Nat) : Sum Nat Nat :=
  if dayMatches s c then .inr c
  else daySeek s 32 ((c / secondsPerDay + 1) * secondsPerDay)

/-- First day at or after `d` that is the first of a month; scanning forward
day by day is equivalent to the library's `Date(y, m, 1, ...)` followed by
`AddDate(0, 1, 0)` and keeps monotonicity evident. -/
def domSeek1 : Nat → Nat → Nat
  | 0, d => d
  | fuel + 1, d => if dayOfMonth d == 1 then d else domSeek1 fuel (d + 1)

/-- Midnight of the first day of the month after the one containing `c`. -/
def firstOfNextMonth (c : Nat) : Nat :=
  domSeek1 31 (c / secondsPerDay + 1) * secondsPerDay

/-- The months loop after its reset plus `AddDate(0, 1, 0)` step: rolling into
January jumps back to WRAP. -/
def monthSeek (s : SpecSchedule) : Nat → Nat → Sum Nat Nat
  | 0, c => .inl c
  | fuel + 1, c =>
    if monthOf c == 1 then .inl c
    else if hasBit s.month (monthOf c) then .inr c
    else monthSeek s fuel (firstOfNextMonth c)

def monthAdjust (s : SpecSchedule) (c : Nat) : Sum Nat Nat :=
  if hasBit s.month (monthOf c) then .inr c
  else monthSeek s 12 (firstOfNextMonth c)

/-- Chain a field adjustment after an earlier one: a pending WRAP jump skips
the rest of the body. -/
def stepThen (x : Sum Nat Nat) (f : Nat → Sum Nat Nat) : Sum Nat Nat :=
  match x with
  | .inl c => .inl c
  | .inr c => f c

/-- One pass of the `WRAP:` body over the five field loops. -/
def wrapBody (s : SpecSchedule) (c : Nat) : Sum Nat Nat :=
  stepThen (monthAdjust s c) (fun c1 =>
    stepThen (dayAdjust s c1) (fun c2 =>
      stepThen (hourAdjust s c2) (fun c3 =>
        stepThen (minuteAdjust s c3) (fun c4 =>
          secAdjust s c4))))

/-- The outer `WRAP` loop: give up (the library returns the zero time) once the
candidate's year passes `yearLimit`. -/
def nextWrap (s : SpecSchedule) (yearLimit : Nat) : Nat → Nat → Option Nat
  | 0, _ => none
  | fuel + 1, c =>
    if yearOf c > yearLimit then none
    else
      match wrapBody s c with
      | .inl cn => nextWrap s yearLimit fuel cn
      | .inr u => some u

/-- Ample fuel for the WRAP loop (a legal schedule needs well under 100 jumps
before the five-year limit cuts the search off). -/
def cronNextFuel : Nat := 512

/-- `SpecSchedule.Next`: start at the following whole second, search up to five
years ahead; `none` models the zero `time.Time`. -/
def cronNext (s : SpecSchedule) (t : Nat) : Option Nat :=
  nextWrap s (yearOf (t + 1) + 5) cronNextFuel (t + 1)

/-- `ScheduleParser.CalculateNextExecution`: an error is produced only when the
expression fails to parse (`parsed = none`); for a parsed schedule whatever the
library's `Next` yields is returned with a nil error — including the zero time. -/
def calculateNextExecution (parsed : Option SpecSchedule) (fromTime : Nat) :
    Except String (Option Nat) :=
  match parsed with
  | none => .error "invalid schedule format"
  | some s => .ok (cronNext s fromTime)

/-! ### SchedulerService (scheduler.go) and PostgresStorage (postgres.go)

`Job.schedule` is kept in parsed form: the stored cron string was validated at
creation time and re-parses to the same `SpecSchedule`, so the parse-error
branches of `CalculateNextExecutionFromTime` are unreachable on stored jobs. -/

/-- `models.Job` (scheduling-relevant fields). -/
structure Job where
  id : Nat
  schedule : SpecSchedule
  api : String
  jobType : JobType
  isRecurring : Bool
  isActive : Bool
  description : String
  maxRetryCount : Int
  deriving DecidableEq

/-- `models.JobSchedule`: at most one row per job. -/
structure JobSchedule where
  jobID : Nat
  nextExecutionTime : Nat
  deriving DecidableEq

/-- The metadata store: jobs, schedule rows, and the next auto-increment id. -/
structure MetaState where
  jobs : List Job
  schedules : List JobSchedule
  nextId : Nat
  deriving DecidableEq

/-- `PostgresStorage.GetJob`: first active job with the given id, else the
`job not found` error. -/
def getJob (st : MetaState) (id : Nat) : Except String Job :=
  match st.jobs.find? (fun j => j.id == id && j.isActive) with
  | some j => .ok j
  | none => .error "job not found"

/-- `PostgresStorage.GetJobSchedule`: the row for the job, else the
`job schedule not found` error. -/
def getJobSchedule (st : MetaState) (jobID : Nat) : Except String JobSchedule :=
  match st.schedules.find? (fun s => s.jobID == jobID) with
  | some s => .ok s
  | none => .error "job schedule not found"

/-- `PostgresStorage.UpdateJobSchedule`: update by job id; zero rows affected
is the not-found error. -/
def updateJobSchedule (st : MetaState) (jobID : Nat) (t : Nat) : Except String MetaState :=
  if st.schedules.any (fun s => s.jobID == jobID) then
    .ok { st with
      schedules := st.schedules.map
        (fun s => if s.jobID == jobID then { s with nextExecutionTime := t } else s) }
  else .error "job schedule not found"

/-- `PostgresStorage.DeleteJobSchedule`: delete by job id; zero rows affected
is the not-found error. -/
def deleteJobSchedule (st : MetaState) (jobID : Nat) : Except String MetaState :=
  if st.schedules.any (fun s => s.jobID == jobID) then
    .ok { st with schedules := st.schedules.filter (fun s => !(s.jobID == jobID)) }
  else .error "job schedule not found"

/-- `ScheduleParser.CalculateNextExecutionFromTime` on a stored (already
validated) schedule: the library's next firing, or Go's zero time when none is
found — returned with a nil error either way. -/
def calculateNextExecutionFromTime (s : SpecSchedule) (t : Nat) : Nat :=
  (cronNext s t).getD 0

/-- `SchedulerService.handleSuccessfulExecution`: delete the row for a
non-recurring job, advance it from its previous `next_execution_time` for a
recurring one.  Second component: the error returned to the caller, if any. -/
def handleSuccessfulExecution (st : MetaState) (job : Job) (schedule : JobSchedule) :
    MetaState × Option String :=
  if !job.isRecurring then
    match deleteJobSchedule st job.id with
    | .ok st' => (st', none)
    | .error e => (st, some ("failed to delete schedule for non-recurring job: " ++ e))
  else
    let next := calculateNextExecutionFromTime job.schedule schedule.nextExecutionTime
    match updateJobSchedule st job.id next with
    | .ok st' => (st', none)
    | .error e => (st, some ("failed to update job schedule: " ++ e))

/-- `SchedulerService.handleFailedExecution`: identical state transitions —
delete for non-recurring, advance to the next occurrence for recurring. -/
def handleFailedExecution (st : MetaState) (job : Job) (schedule : JobSchedule) :
    MetaState × Option String :=
  if !job.isRecurring then
    match deleteJobSchedule st job.id with
    | .ok st' => (st', none)
    | .error e => (st, some ("failed to delete schedule for failed non-recurring job: " ++ e))
  else
    let next := calculateNextExecutionFromTime job.schedule schedule.nextExecutionTime
    match updateJobSchedule st job.id next with
    | .ok st' => (st', none)
    | .error e => (st, some ("failed to update job schedule: " ++ e))

/-- `SchedulerService.HandleJobCompletion`: load the job and its schedule row
(propagating their not-found errors), then branch on `success`. -/
def handleJobCompletion (st : MetaState) (jobID : Nat) (success : Bool) :
    MetaState × Option String :=
  match getJob st jobID with
  | .error e => (st, some ("failed to get job: " ++ e))
  | .ok job =>
    match getJobSchedule st jobID with
    | .error e => (st, some ("failed to get job schedule: " ++ e))
    | .ok schedule =>
      if success then handleSuccessfulExecution st job schedule
      else handleFailedExecution st job schedule

/-- Deliver a batch of worker notifications to the scheduler in order. -/
def applyCompletionCalls (st : MetaState) (calls : List (Nat × Bool)) : MetaState :=
  calls.foldl (fun s c => (handleJobCompletion s c.1 c.2).1) st

/-! ### internal/handlers/job.go — CreateJob -/

/-- The bound `CreateJobRequest`; `schedule` is `none` exactly when
`ValidateSchedule` rejects the submitted string. -/
structure CreateJobRequest where
  schedule : Option SpecSchedule
  api : String
  jobType : JobType
  isRecurring : Bool
  description : String
  maxRetryCount : Int
  deriving DecidableEq

/-- `JobHandler.CreateJob` (lines 42-122) as a function of the metadata store.
`createJobFails` / `createScheduleFails` model the fallibility of the two
separate gorm inserts (there is no surrounding transaction).  Result: the HTTP
status and the final store. -/
def createJob (st : MetaState) (req : CreateJobRequest) (now : Nat)
    (createJobFails createScheduleFails : Bool) : Nat × MetaState :=
  if !(req.jobType == AT_LEAST_ONCE) && !(req.jobType == AT_MOST_ONCE) then (400, st)
  else
    match req.schedule with
    | none => (400, st)
    | some sched =>
      let maxRetry := if req.maxRetryCount == 0 then 3 else req.maxRetryCount
      if createJobFails then (500, st)
      else
        let job : Job :=
          { id := st.nextId, schedule := sched, api := req.api, jobType := req.jobType
            isRecurring := req.isRecurring, isActive := true
            description := req.description, maxRetryCount := maxRetry }
        let st1 : MetaState := { st with jobs := st.jobs ++ [job], nextId := st.nextId + 1 }
        let next := calculateNextExecutionFromTime sched now
        if createScheduleFails then (500, st1)
        else (201, { st1 with schedules := st1.schedules ++ [⟨job.id, next⟩] })

/-! ### internal/handlers/job.go — ListJobs pagination -/

/-- `JobHandler.ListJobs` (lines 154-198) index computation.  The parameters
are the `strconv.Atoi` results for the query strings (`none` = parse error,
in which case Go's `Atoi` also yields 0, caught by the same fallback).
`total = len(jobs)`.  Go `int` addition wraps at 64 bits.  Returns
`(limit, offset, start, end)` with `jobs[start:end]` the slice taken. -/
def listJobsPagination (limitParam offsetParam : Option Int) (total : Nat) :
    Int × Int × Int × Int :=
  let limit : Int := match limitParam with
    | none => 10
    | some v => if v ≤ 0 then 10 else v
  let offset : Int := match offsetParam with
    | none => 0
    | some v => if v < 0 then 0 else v
  let start := offset
  let stop := wrap64 (offset + limit)
  let start := if start > (total : Int) then (total : Int) else start
  let stop := if stop > (total : Int) then (total : Int) else stop
  (limit, offset, start, stop)

/-- Go slice expression `a[lo:hi]` is in bounds (does not panic) iff
`0 ≤ lo ≤ hi ≤ len(a)`. -/
def goSliceInBounds (lo hi len : Int) : Bool :=
  decide (0 ≤ lo) && decide (lo ≤ hi) && decide (hi ≤ len)

/-! ### Concrete instances used by the claim theorems -/

/-- The parse of `* * * * * *`: every field fully set, with the star bit. -/
def everyStar : SpecSchedule :=
  { second := 2 ^ 60 - 1 + 2 ^ 63, minute := 2 ^ 60 - 1 + 2 ^ 63
    hour := 2 ^ 24 - 1 + 2 ^ 63, dom := 2 ^ 32 - 2 + 2 ^ 63
    month := 2 ^ 13 - 2 + 2 ^ 63, dow := 127 + 2 ^ 63 }

/-- The parse of `0 0 0 30 2 *`: the parser accepts it (30 lies in the
day-of-month range, 2 in the month range) but no February 30 exists. -/
def feb30Sched : SpecSchedule :=
  { second := 1, minute := 1, hour := 1, dom := 2 ^ 30, month := 4, dow := 127 + 2 ^ 63 }

/-- 1970-01-01 00:00:00 UTC. -/
def t1970 : Nat := 719162 * secondsPerDay

/-- A claimed AT_LEAST_ONCE message of recurring job 7, first attempt. -/
def wMsg : QueueJob :=
  { id := "job_7_100", jobID := 7, api := "http://h/ok", maxRetryCount := 3, retryCount := 0
    createdAt := 0, scheduledAt := 1000 * goSecond, timeout := 90
    jobType := AT_LEAST_ONCE, isRecurring := true, schedule := "* * * * * *" }

/-- Broker state while the worker holds the claim on `wMsg`. -/
def wBroker : RedisState :=
  { ready := [], processing := ["job_7_100"], jobData := [("job_7_100", wMsg)]
    retrying := [], completed := [] }

/-- Metadata store for job 7: active, recurring, due at second 1000. -/
def wMeta : MetaState :=
  { jobs := [{ id := 7, schedule := everyStar, api := "http://h/ok"
               jobType := AT_LEAST_ONCE, isRecurring := true, isActive := true
               description := "", maxRetryCount := 3 }]
    schedules := [{ jobID := 7, nextExecutionTime := 1000 }], nextId := 8 }

/-- An execution of job 7 still RUNNING, as seen by the single-flight guard. -/
def runningExec : JobExecution :=
  { jobID := 7, status := StatusRunning, error := "", executionTime := 0, retryCount := 0 }

/-- Active recurring job 1 firing every second. -/
def recJob : Job :=
  { id := 1, schedule := everyStar, api := "http://h/ok", jobType := AT_LEAST_ONCE
    isRecurring := true, isActive := true, description := "", maxRetryCount := 3 }

/-- Store holding only `recJob`, due at second 1000. -/
def recState : MetaState :=
  { jobs := [recJob], schedules := [{ jobID := 1, nextExecutionTime := 1000 }], nextId := 2 }

/-- Active non-recurring job 2. -/
def onceJob : Job :=
  { id := 2, schedule := everyStar, api := "http://h/ok", jobType := AT_LEAST_ONCE
    isRecurring := false, isActive := true, description := "", maxRetryCount := 3 }

/-- Store holding only `onceJob` and its schedule row. -/
def onceState : MetaState :=
  { jobs := [onceJob], schedules := [{ jobID := 2, nextExecutionTime := 1000 }], nextId := 3 }

/-- An empty metadata store. -/
def emptyMeta : MetaState := { jobs := [], schedules := [], nextId := 1 }

/-- A well-formed POST /jobs request. -/
def demoReq : CreateJobRequest :=
  { schedule := some everyStar, api := "http://h/ok", jobType := AT_LEAST_ONCE
    isRecurring := true, description := "d", maxRetryCount := 0 }

/-- The job row `createJob emptyMeta demoReq` inserts. -/
def demoJob : Job :=
  { id := 1, schedule := everyStar, api := "http://h/ok", jobType := AT_LEAST_ONCE
    isRecurring := true, isActive := true, description := "d", maxRetryCount := 3 }

/-! ## Theorems -/

/-- C9: `should_retry(msg)` is false when `retry_count ≥ max_retry_count`,
false for AT_MOST_ONCE regardless of the cap, and true exactly for
AT_LEAST_ONCE messages with `retry_count < max_retry_count`. -/
theorem shouldRetry_spec (qj : QueueJob) :
    qj.shouldRetry = true ↔ qj.retryCount < qj.maxRetryCount ∧ qj.jobType = AT_LEAST_ONCE := by
  unfold QueueJob.shouldRetry
  split
  · rename_i hge
    constructor
    · intro h
      exact absurd h (by decide)
    · rintro ⟨hlt, -⟩
      omega
  · rename_i hlt
    split
    · rename_i hmost
      rw [beq_iff_eq] at hmost
      constructor
      · intro h
        exact absurd h (by decide)
      · rintro ⟨-, hal⟩
        rw [hal] at hmost
        exact absurd hmost (by decide)
    · rename_i hnotmost
      rw [beq_iff_eq]
      constructor
      · intro h
        exact ⟨by omega, h⟩
      · rintro ⟨-, hal⟩
        exact hal

/-- C3 (code bug): `FailJob` increments the retry count before computing the
backoff, so the message whose retry_count becomes 1 is deferred by
`2^1 = 2` seconds and the one whose retry_count becomes 2 by `2^2 = 4`
seconds — not the documented `min(2^(k-1), 300)` (1 s, then 2 s). -/
theorem failJob_first_retry_delay_two_seconds :
    failJobRetryDelay wMsg 100 = 2 * goSecond ∧
    failJobRetryDelay (wMsg.incrementRetry 100) 200 = 4 * goSecond ∧
    wMsg.shouldRetry = true := by
  decide

/-- C1 (code bug): on a successful HTTP call `processJob` completes the
message in the broker (the claim is released) but sends no notification to
`HandleJobCompletion`, so the JobSchedule row of recurring job 7 is left
untouched; had the worker sent `(7, true)` the row would have advanced. -/
theorem processJob_success_never_notifies_scheduler :
    (processJob wBroker [] wMsg true (1000 * goSecond) 5).2.1 = [] ∧
    (processJob wBroker [] wMsg true (1000 * goSecond) 5).1.processing = [] ∧
    (processJob wBroker [] wMsg true (1000 * goSecond) 5).1.jobData = [] ∧
    applyCompletionCalls wMeta (processJob wBroker [] wMsg true (1000 * goSecond) 5).2.1
      = wMeta ∧
    (handleJobCompletion wMeta 7 true).1.schedules = [{ jobID := 7, nextExecutionTime := 1001 }] := by
  refine ⟨by decide, by decide, by decide, by decide, ?_⟩
  decide

/-- C2 (code bug): a retryable failure of an AT_LEAST_ONCE message (retry
count 0 < cap 3) is deferred to the retrying lane, yet `handleFailedJob`
still sends `(7, false)` to `HandleJobCompletion`, which advances the
recurring job's JobSchedule row while the retry is pending. -/
theorem processJob_retryable_failure_notifies_scheduler :
    (processJob wBroker [] wMsg false (10 * goSecond) 5).2.1 = [(7, false)] ∧
    (processJob wBroker [] wMsg false (10 * goSecond) 5).1.retrying.map
        (fun p => (p.1, p.2.retryCount)) = [(12, 1)] ∧
    (applyCompletionCalls wMeta (processJob wBroker [] wMsg false (10 * goSecond) 5).2.1).schedules
      = [{ jobID := 7, nextExecutionTime := 1001 }] := by
  refine ⟨by decide, by decide, ?_⟩
  decide

/-- C7 counterexample: when the single-flight guard fires, the abandoned
message's queue id is removed from `processing` but its `job_data` body is
left in place, contradicting the claim that the key is deleted. -/
theorem processJob_abandon_keeps_job_data :
    (processJob wBroker [runningExec] wMsg true 0 0).1.jobData.lookup "job_7_100" = some wMsg ∧
    (processJob wBroker [runningExec] wMsg true 0 0).1.processing = [] ∧
    (processJob wBroker [runningExec] wMsg true 0 0).2.2 = [] := by
  decide

/-- C7 as amended: on a guard hit the worker abandons the message — the queue
id is dropped from `processing`, no JobExecution row is created, nothing is
retried or handed to the scheduler — but the `job_data` body is left to its
TTL rather than deleted. -/
theorem processJob_abandon_path_effects (st : RedisState) (execs : List JobExecution)
    (job : QueueJob) (succ : Bool) (nowNano durationNs : Int) (e : JobExecution)
    (h : getJobExecutionInProgress execs job.jobID = some e) :
    (processJob st execs job succ nowNano durationNs).1.processing
        = st.processing.filter (fun x => x ≠ job.id) ∧
    (processJob st execs job succ nowNano durationNs).1.jobData = st.jobData ∧
    (processJob st execs job succ nowNano durationNs).1.ready = st.ready ∧
    (processJob st execs job succ nowNano durationNs).1.retrying = st.retrying ∧
    (processJob st execs job succ nowNano durationNs).2.1 = [] ∧
    (processJob st execs job succ nowNano durationNs).2.2 = [] := by
  unfold processJob
  rw [h]
  exact ⟨rfl, rfl, rfl, rfl, rfl, rfl⟩

/-- Witness for the amended C7 theorem at a concrete guard hit. -/
theorem processJob_abandon_path_effects_witness :
    (processJob wBroker [runningExec] wMsg false 3 4).1.processing
        = wBroker.processing.filter (fun x => x ≠ wMsg.id) ∧
    (processJob wBroker [runningExec] wMsg false 3 4).1.jobData = wBroker.jobData ∧
    (processJob wBroker [runningExec] wMsg false 3 4).1.ready = wBroker.ready ∧
    (processJob wBroker [runningExec] wMsg false 3 4).1.retrying = wBroker.retrying ∧
    (processJob wBroker [runningExec] wMsg false 3 4).2.1 = [] ∧
    (processJob wBroker [runningExec] wMsg false 3 4).2.2 = [] :=
  processJob_abandon_path_effects wBroker [runningExec] wMsg false 3 4 runningExec rfl

/-! ### Monotonicity of the cron search -/

theorem seekVal_inl (c : Nat) : seekVal (Sum.inl c) = c := rfl

theorem seekVal_inr (c : Nat) : seekVal (Sum.inr c) = c := rfl

theorem secSeek_ge (s : SpecSchedule) : ∀ fuel c, c ≤ seekVal (secSeek s fuel c) := by
  intro fuel
  induction fuel with
  | zero => intro c; exact le_of_eq (seekVal_inl c).symm
  | succ n ih =>
    intro c
    rw [secSeek]
    split
    · exact le_of_eq (seekVal_inl c).symm
    · split
      · exact le_of_eq (seekVal_inr c).symm
      · exact le_trans (Nat.le_succ c) (ih (c + 1))

theorem secAdjust_ge (s : SpecSchedule) (c : Nat) : c ≤ seekVal (secAdjust s c) := by
  rw [secAdjust]
  split
  · exact le_of_eq (seekVal_inr c).symm
  · exact le_trans (Nat.le_succ c) (secSeek_ge s 60 (c + 1))

theorem minuteSeek_ge (s : SpecSchedule) : ∀ fuel c, c ≤ seekVal (minuteSeek s fuel c) := by
  intro fuel
  induction fuel with
  | zero => intro c; exact le_of_eq (seekVal_inl c).symm
  | succ n ih =>
    intro c
    rw [minuteSeek]
    split
    · exact le_of_eq (seekVal_inl c).symm
    · split
      · exact le_of_eq (seekVal_inr c).symm
      · exact le_trans (by omega) (ih (c + 60))

theorem minuteAdjust_ge (s : SpecSchedule) (c : Nat) : c ≤ seekVal (minuteAdjust s c) := by
  rw [minuteAdjust]
  split
  · exact le_of_eq (seekVal_inr c).symm
  · exact le_trans (by omega) (minuteSeek_ge s 60 ((c / 60 + 1) * 60))

theorem hourSeek_ge (s : SpecSchedule) : ∀ fuel c, c ≤ seekVal (hourSeek s fuel c) := by
  intro fuel
  induction fuel with
  | zero => intro c; exact le_of_eq (seekVal_inl c).symm
  | succ n ih =>
    intro c
    rw [hourSeek]
    split
    · exact le_of_eq (seekVal_inl c).symm
    · split
      · exact le_of_eq (seekVal_inr c).symm
      · exact le_trans (by omega) (ih (c + 3600))

theorem hourAdjust_ge (s : SpecSchedule) (c : Nat) : c ≤ seekVal (hourAdjust s c) := by
  rw [hourAdjust]
  split
  · exact le_of_eq (seekVal_inr c).symm
  · exact le_trans (by omega) (hourSeek_ge s 24 ((c / 3600 + 1) * 3600))

theorem daySeek_ge (s : SpecSchedule) : ∀ fuel c, c ≤ seekVal (daySeek s fuel c) := by
  intro fuel
  induction fuel with
  | zero => intro c; exact le_of_eq (seekVal_inl c).symm
  | succ n ih =>
    intro c
    rw [daySeek]
    split
    · exact le_of_eq (seekVal_inl c).symm
    · split
      · exact le_of_eq (seekVal_inr c).symm
      · exact le_trans (by simp [secondsPerDay]) (ih (c + secondsPerDay))

theorem dayAdjust_ge (s : SpecSchedule) (c : Nat) : c ≤ seekVal (dayAdjust s c) := by
  rw [dayAdjust]
  split
  · exact le_of_eq (seekVal_inr c).symm
  · refine le_trans ?_ (daySeek_ge s 32 ((c / secondsPerDay + 1) * secondsPerDay))
    simp only [secondsPerDay]
    omega

theorem domSeek1_ge : ∀ fuel d, d ≤ domSeek1 fuel d := by
  intro fuel
  induction fuel with
  | zero => intro d; exact le_refl d
  | succ n ih =>
    intro d
    rw [domSeek1]
    split
    · exact le_refl d
    · exact le_trans (Nat.le_succ d) (ih (d + 1))

theorem firstOfNextMonth_ge (c : Nat) : c + 1 ≤ firstOfNextMonth c := by
  rw [firstOfNextMonth]
  have h1 : (c / secondsPerDay + 1) * secondsPerDay ≤ domSeek1 31 (c / secondsPerDay + 1) * secondsPerDay :=
    Nat.mul_le_mul_right _ (domSeek1_ge 31 (c / secondsPerDay + 1))
  refine le_trans ?_ h1
  simp only [secondsPerDay]
  omega

theorem monthSeek_ge (s : SpecSchedule) : ∀ fuel c, c ≤ seekVal (monthSeek s fuel c) := by
  intro fuel
  induction fuel with
  | zero => intro c; exact le_of_eq (seekVal_inl c).symm
  | succ n ih =>
    intro c
    rw [monthSeek]
    split
    · exact le_of_eq (seekVal_inl c).symm
    · split
      · exact le_of_eq (seekVal_inr c).symm
      · exact le_trans (le_trans (Nat.le_succ c) (firstOfNextMonth_ge c)) (ih (firstOfNextMonth c))

theorem monthAdjust_ge (s : SpecSchedule) (c : Nat) : c ≤ seekVal (monthAdjust s c) := by
  rw [monthAdjust]
  split
  · exact le_of_eq (seekVal_inr c).symm
  · exact le_trans (le_trans (Nat.le_succ c) (firstOfNextMonth_ge c))
      (monthSeek_ge s 12 (firstOfNextMonth c))

theorem stepThen_ge' (c : Nat) (x : Sum Nat Nat) (f : Nat → Sum Nat Nat)
    (h1 : c ≤ seekVal x) (h2 : ∀ d, d ≤ seekVal (f d)) : c ≤ seekVal (stepThen x f) := by
  cases x with
  | inl a => exact h1
  | inr a => exact le_trans h1 (h2 a)

theorem wrapBody_ge (s : SpecSchedule) (c : Nat) : c ≤ seekVal (wrapBody s c) := by
  rw [wrapBody]
  refine stepThen_ge' c _ _ (monthAdjust_ge s c) (fun c1 => ?_)
  refine stepThen_ge' c1 _ _ (dayAdjust_ge s c1) (fun c2 => ?_)
  refine stepThen_ge' c2 _ _ (hourAdjust_ge s c2) (fun c3 => ?_)
  exact stepThen_ge' c3 _ _ (minuteAdjust_ge s c3) (fun c4 => secAdjust_ge s c4)

theorem nextWrap_ge (s : SpecSchedule) (yl : Nat) :
    ∀ fuel c u, nextWrap s yl fuel c = some u → c ≤ u := by
  intro fuel
  induction fuel with
  | zero =>
    intro c u h
    simp [nextWrap] at h
  | succ n ih =>
    intro c u h
    rw [nextWrap] at h
    split at h
    · exact absurd h (by simp)
    · rcases hw : wrapBody s c with cn | v
      · rw [hw] at h
        have hc : c ≤ cn := by
          have := wrapBody_ge s c
          rwa [hw, seekVal_inl] at this
        exact le_trans hc (ih cn u h)
      · rw [hw] at h
        have hc : c ≤ v := by
          have := wrapBody_ge s c
          rwa [hw, seekVal_inr] at this
        cases h
        exact hc

/-- C5 as amended: the next-fire computation is a pure function of
`(expr, t)`, and every instant it actually returns is strictly greater than
`t` (it advances by at least one second); but when no firing is found within
the search horizon the code hands back Go's zero time with a nil error
instead of the error the claim demands. -/
theorem cronNext_strictly_advances (s : SpecSchedule) (t u : Nat)
    (h : cronNext s t = some u) : t < u :=
  lt_of_lt_of_le (Nat.lt_succ_self t) (nextWrap_ge s (yearOf (t + 1) + 5) cronNextFuel (t + 1) u h)

/-- Witness for the amended C5 theorem: for `* * * * * *` the next firing
after second 1000 is second 1001. -/
theorem cronNext_strictly_advances_witness :
    cronNext everyStar 1000 = some 1001 ∧ 1000 < 1001 :=
  ⟨by decide, cronNext_strictly_advances everyStar 1000 1001 (by decide)⟩

/-- C5 counterexample: `0 0 0 30 2 *` parses, yet `CalculateNextExecution`
returns the zero time together with a nil error — not an error — because the
library's five-year search finds no February 30. -/
theorem calculateNextExecution_feb30_ok_zero :
    calculateNextExecution (some feb30Sched) t1970 = .ok none := by
  rfl

/-! ### Completion-protocol lemmas -/

theorem getJob_ok (st : MetaState) (id : Nat) (j : Job) (h : getJob st id = .ok j) :
    st.jobs.find? (fun x => x.id == id && x.isActive) = some j := by
  unfold getJob at h
  rcases hfind : st.jobs.find? (fun x => x.id == id && x.isActive) with _ | x
  · rw [hfind] at h
    cases h
  · rw [hfind] at h
    cases h
    exact hfind

theorem getJobSchedule_ok (st : MetaState) (id : Nat) (sched : JobSchedule)
    (h : getJobSchedule st id = .ok sched) :
    st.schedules.find? (fun s => s.jobID == id) = some sched := by
  unfold getJobSchedule at h
  rcases hfind : st.schedules.find? (fun s => s.jobID == id) with _ | x
  · rw [hfind] at h
    cases h
  · rw [hfind] at h
    cases h
    exact hfind

theorem getJob_id_eq (st : MetaState) (id : Nat) (j : Job) (h : getJob st id = .ok j) :
    j.id = id := by
  have hp := List.find?_some (getJob_ok st id j h)
  simp only [Bool.and_eq_true, beq_iff_eq] at hp
  exact hp.1

theorem schedules_any_of_ok (st : MetaState) (id : Nat) (sched : JobSchedule)
    (h : getJobSchedule st id = .ok sched) :
    st.schedules.any (fun s => s.jobID == id) = true := by
  have hfind := getJobSchedule_ok st id sched h
  have hmem := List.mem_of_find?_eq_some hfind
  have hp := List.find?_some hfind
  exact List.any_eq_true.mpr ⟨sched, hmem, hp⟩

theorem deleteJobSchedule_of_ok (st : MetaState) (id : Nat) (sched : JobSchedule)
    (h : getJobSchedule st id = .ok sched) :
    deleteJobSchedule st id
      = .ok { st with schedules := st.schedules.filter (fun s => !(s.jobID == id)) } := by
  unfold deleteJobSchedule
  rw [if_pos (schedules_any_of_ok st id sched h)]

theorem getJob_ignores_schedules (st : MetaState) (id : Nat) (x : List JobSchedule) :
    getJob { st with schedules := x } id = getJob st id := rfl

theorem getJobSchedule_after_filter (st : MetaState) (id : Nat) :
    getJobSchedule { st with schedules := st.schedules.filter (fun s => !(s.jobID == id)) } id
      = .error "job schedule not found" := by
  unfold getJobSchedule
  have hnone : (st.schedules.filter (fun s => !(s.jobID == id))).find?
      (fun s => s.jobID == id) = none := by
    rw [List.find?_eq_none]
    intro x hx
    have := (List.mem_filter.mp hx).2
    simp only [Bool.not_eq_true'] at this
    simp [this]
  rw [hnone]

theorem handleJobCompletion_of_getJob_error (st : MetaState) (id : Nat) (success : Bool)
    (e : String) (h : getJob st id = .error e) :
    handleJobCompletion st id success = (st, some ("failed to get job: " ++ e)) := by
  unfold handleJobCompletion
  rw [h]

theorem handleJobCompletion_of_sched_error (st : MetaState) (id : Nat) (success : Bool)
    (j : Job) (e : String) (hj : getJob st id = .ok j) (hs : getJobSchedule st id = .error e) :
    handleJobCompletion st id success = (st, some ("failed to get job schedule: " ++ e)) := by
  unfold handleJobCompletion
  rw [hj, hs]

theorem handleJobCompletion_nonrecurring (st : MetaState) (id : Nat) (success : Bool)
    (j : Job) (sched : JobSchedule) (hj : getJob st id = .ok j)
    (hrec : j.isRecurring = false) (hs : getJobSchedule st id = .ok sched) :
    (handleJobCompletion st id success).1
      = { st with schedules := st.schedules.filter (fun s => !(s.jobID == id)) } := by
  unfold handleJobCompletion
  rw [hj, hs]
  have hid := getJob_id_eq st id j hj
  have hdel := deleteJobSchedule_of_ok st id sched hs
  cases success <;>
    simp [handleSuccessfulExecution, handleFailedExecution, hrec, hid, hdel]

/-- C6 as amended: when the Job row is missing or inactive, or the JobSchedule
row is missing, the completion protocol performs no state change — but it does
return a not-found error to its caller (which merely logs it) instead of
reporting nothing. -/
theorem handleJobCompletion_missing_rows (st : MetaState) (id : Nat) (success : Bool)
    (h : (∃ e, getJob st id = .error e) ∨ (∃ e, getJobSchedule st id = .error e)) :
    (handleJobCompletion st id success).1 = st ∧
    (handleJobCompletion st id success).2.isSome = true := by
  rcases h with ⟨e, he⟩ | ⟨e, he⟩
  · rw [handleJobCompletion_of_getJob_error st id success e he]
    exact ⟨rfl, rfl⟩
  · rcases hj : getJob st id with e' | j
    · rw [handleJobCompletion_of_getJob_error st id success e' hj]
      exact ⟨rfl, rfl⟩
    · rw [handleJobCompletion_of_sched_error st id success j e hj he]
      exact ⟨rfl, rfl⟩

/-- Witness for the amended C6 theorem: completing an unknown job id changes
nothing and yields an error. -/
theorem handleJobCompletion_missing_rows_witness :
    (handleJobCompletion emptyMeta 5 false).1 = emptyMeta ∧
    (handleJobCompletion emptyMeta 5 false).2.isSome = true :=
  handleJobCompletion_missing_rows emptyMeta 5 false (Or.inl ⟨"job not found", rfl⟩)

/-- C6 counterexample: for a missing Job the completion protocol reports an
error (`failed to get job: job not found`), contradicting the claim that the
situation is reported error-free. -/
theorem handleJobCompletion_missing_job_reports_error :
    handleJobCompletion emptyMeta 1 true
      = (emptyMeta, some "failed to get job: job not found") := by
  rfl

/-- C4 as amended: `complete(job_id, success)` is idempotent whenever the job
is missing/inactive, non-recurring, or has no schedule row; for an active
recurring job with a schedule row a second invocation advances
`next_execution_time` a second time, so completion is not idempotent there. -/
theorem handleJobCompletion_idempotent_when_terminal (st : MetaState) (id : Nat)
    (success : Bool)
    (h : (∃ e, getJob st id = .error e) ∨
         (∃ j, getJob st id = .ok j ∧ j.isRecurring = false) ∨
         (∃ e, getJobSchedule st id = .error e)) :
    (handleJobCompletion (handleJobCompletion st id success).1 id success).1
      = (handleJobCompletion st id success).1 := by
  rcases h with ⟨e, he⟩ | ⟨j, hj, hrec⟩ | ⟨e, he⟩
  · rw [handleJobCompletion_of_getJob_error st id success e he]
    exact (handleJobCompletion_missing_rows st id success (Or.inl ⟨e, he⟩)).1
  · rcases hs : getJobSchedule st id with e | sched
    · exact (handleJobCompletion_missing_rows (handleJobCompletion st id success).1 id success
        (by
          rw [(handleJobCompletion_missing_rows st id success (Or.inr ⟨e, hs⟩)).1]
          exact Or.inr ⟨e, hs⟩)).1
    · rw [handleJobCompletion_nonrecurring st id success j sched hj hrec hs]
      exact (handleJobCompletion_missing_rows _ id success
        (Or.inr ⟨"job schedule not found", getJobSchedule_after_filter st id⟩)).1
  · exact (handleJobCompletion_missing_rows (handleJobCompletion st id success).1 id success
      (by
        rw [(handleJobCompletion_missing_rows st id success (Or.inr ⟨e, he⟩)).1]
        exact Or.inr ⟨e, he⟩)).1

/-- Witness for the amended C4 theorem: completing non-recurring job 2 twice
leaves the same store as completing it once. -/
theorem handleJobCompletion_idempotent_witness :
    (handleJobCompletion (handleJobCompletion onceState 2 true).1 2 true).1
      = (handleJobCompletion onceState 2 true).1 :=
  handleJobCompletion_idempotent_when_terminal onceState 2 true
    (Or.inr (Or.inl ⟨onceJob, rfl, rfl⟩))

/-- C4 counterexample: for active recurring job 1 (firing every second, row at
second 1000) a second `complete(1, true)` advances `next_execution_time`
again — 1002 after two invocations versus 1001 after one. -/
theorem handleJobCompletion_twice_advances_twice :
    (handleJobCompletion recState 1 true).1.schedules
        = [{ jobID := 1, nextExecutionTime := 1001 }] ∧
    (handleJobCompletion (handleJobCompletion recState 1 true).1 1 true).1.schedules
        = [{ jobID := 1, nextExecutionTime := 1002 }] := by
  refine ⟨by decide, ?_⟩
  decide

/-! ### Job creation -/

/-- C8 counterexample: with the Job insert succeeding and the JobSchedule
insert failing, POST /jobs answers 500 and leaves the Job row persisted with
no JobSchedule row — the two inserts are not atomic. -/
theorem createJob_schedule_insert_failure_orphans_job :
    createJob emptyMeta demoReq 1000 false true
      = (500, { jobs := [demoJob], schedules := [], nextId := 2 }) := by
  rfl

/-- C8 as amended: when both inserts succeed (and the request is valid), the
handler answers 201 and appends both the Job row and its JobSchedule row with
`next_execution_time = Schedule.next(schedule, now)`; but on a failed
JobSchedule insert the already-persisted Job row is not rolled back. -/
theorem createJob_success_creates_both (st : MetaState) (req : CreateJobRequest)
    (now : Nat) (sched : SpecSchedule)
    (htype : req.jobType = AT_LEAST_ONCE ∨ req.jobType = AT_MOST_ONCE)
    (hsched : req.schedule = some sched) :
    createJob st req now false false
      = (201, { st with
          jobs := st.jobs ++
            [{ id := st.nextId, schedule := sched, api := req.api, jobType := req.jobType
               isRecurring := req.isRecurring, isActive := true
               description := req.description
               maxRetryCount := if req.maxRetryCount == 0 then 3 else req.maxRetryCount }]
          schedules := st.schedules ++
            [{ jobID := st.nextId
               nextExecutionTime := calculateNextExecutionFromTime sched now }]
          nextId := st.nextId + 1 }) := by
  unfold createJob
  rw [hsched]
  rcases htype with h | h <;> rw [h] <;> simp [AT_LEAST_ONCE, AT_MOST_ONCE]

/-- Witness for the amended C8 theorem at a concrete request. -/
theorem createJob_success_creates_both_witness :
    createJob emptyMeta demoReq 1000 false false
      = (201, { jobs := [demoJob], schedules := [{ jobID := 1, nextExecutionTime := 1001 }]
                nextId := 2 }) := by
  have h := createJob_success_creates_both emptyMeta demoReq 1000 everyStar (Or.inl rfl) rfl
  rw [h]
  decide

/-! ### ListJobs pagination -/

/-- Go `int64` values below `2^63` are not changed by the wrap. -/
theorem wrap64_eq_of_lt (x : Int) (h0 : 0 ≤ x) (h1 : x < 2 ^ 63) : wrap64 x = x := by
  unfold wrap64
  have : (x + 2 ^ 63) % 2 ^ 64 = x + 2 ^ 63 := Int.emod_eq_of_lt (by omega) (by omega)
  omega

/-- C10 counterexample: `limit=10&offset=9223372036854775807` passes `Atoi`,
`offset+limit` wraps to a negative `end`, the clamps leave `start = total` and
`end < 0`, and `jobs[start:end]` is out of bounds — the handler panics. -/
theorem listJobs_pagination_overflow_panics :
    goSliceInBounds (listJobsPagination (some 10) (some (2 ^ 63 - 1)) 0).2.2.1
      (listJobsPagination (some 10) (some (2 ^ 63 - 1)) 0).2.2.2 0 = false := by
  decide

/-- C10 as amended: for every `limit`/`offset` query combination whose
effective `offset + limit` does not overflow `int64`, the fallbacks and clamps
make `jobs[start:end]` well defined (no panic) and return at most `limit`
jobs; the unclamped `offset + limit` can overflow and panic the handler. -/
theorem listJobs_pagination_safe_without_overflow (lp op : Option Int) (total : Nat)
    (h : (listJobsPagination lp op total).2.1 + (listJobsPagination lp op total).1 < 2 ^ 63) :
    goSliceInBounds (listJobsPagination lp op total).2.2.1
        (listJobsPagination lp op total).2.2.2 total = true ∧
    (listJobsPagination lp op total).2.2.2 - (listJobsPagination lp op total).2.2.1
      ≤ (listJobsPagination lp op total).1 := by
  have key : ∃ L O, 1 ≤ L ∧ 0 ≤ O ∧
      listJobsPagination lp op total =
        (L, O, if O > (total : Int) then (total : Int) else O,
          if wrap64 (O + L) > (total : Int) then (total : Int) else wrap64 (O + L)) := by
    rcases lp with _ | v <;> rcases op with _ | w
    · exact ⟨10, 0, by norm_num, le_refl 0, rfl⟩
    · exact ⟨10, if w < 0 then 0 else w, by norm_num, by split_ifs <;> omega, rfl⟩
    · exact ⟨if v ≤ 0 then 10 else v, 0, by split_ifs <;> omega, le_refl 0, rfl⟩
    · exact ⟨if v ≤ 0 then 10 else v, if w < 0 then 0 else w, by split_ifs <;> omega,
        by split_ifs <;> omega, rfl⟩
  obtain ⟨L, O, hL, hO, heq⟩ := key
  rw [heq] at h ⊢
  dsimp only at h ⊢
  rw [wrap64_eq_of_lt (O + L) (by omega) (by omega)]
  simp only [goSliceInBounds, Bool.and_eq_true, decide_eq_true_eq]
  split_ifs <;> omega

/-- Witness for the amended C10 theorem: default limit and offset over a
five-element list select `jobs[0:5]`. -/
theorem listJobs_pagination_safe_witness :
    goSliceInBounds (listJobsPagination none none 5).2.2.1
        (listJobsPagination none none 5).2.2.2 5 = true ∧
    (listJobsPagination none none 5).2.2.2 - (listJobsPagination none none 5).2.2.1
      ≤ (listJobsPagination none none 5).1 :=
  listJobs_pagination_safe_without_overflow none none 5 (by decide)

end JobSched
